import Mathlib

/-!
A verification development for the core byte-stream I/O layer of riegeli:
shallow embeddings of `ZstdReaderBase` (zstd_reader.cc), `FdReaderBase`
(fd_reader.cc), `Crc32cDigester` (crc32c_digester.h), `Writer` floating-point
formatting (writer.cc), and `PositionShiftingWriterBase`
(position_shifting_writer.h), together with theorems about their error
handling, loop contracts and algebraic properties.

External collaborators (the zstd engine, the kernel's read/pread syscalls,
the source `Reader` feeding the zstd decoder) are represented by scripted
inputs: each run of an embedded function takes the sequence of responses the
collaborator would have produced, so the embedded control flow is exercised
deterministically and executably.
-/

set_option maxRecDepth 8192

namespace Riegeli

/-- Canonical error codes used by this core (spec section 7), plus a code for
OS-mapped errno failures and an `okCode` placeholder for non-failed status. -/
inductive StatusCode where
  | okCode
  | invalidArgument
  | dataLoss
  | resourceExhausted
  | internalErr
  | unimplemented
  | errnoCode (e : Nat)
deriving DecidableEq

/-- A status value: a (code, message) pair plus the append-only chain of
annotation context strings. Annotation wraps without losing the originating
status: `code` and `message` stay the bottommost cause, `context` grows. -/
structure Status where
  code : StatusCode
  message : String
  context : List String
deriving DecidableEq

/-- `riegeli::Annotate`: attach a context string to a status without
replacing its root cause. -/
def Annotate (s : Status) (detail : String) : Status :=
  { s with context := s.context ++ [detail] }

/-- Stream lifecycle state: open-and-healthy, failed (latched status), or
closed in good standing. -/
inductive ObjState where
  | openOk
  | failed (s : Status)
  | closedOk
deriving DecidableEq

/-- `Position` is a 64-bit unsigned integer; its maximum value. -/
def positionMax : Nat := 2 ^ 64 - 1

/-- `std::numeric_limits<size_t>::max()` on a 64-bit platform. -/
def sizeTMax : Nat := 2 ^ 64 - 1

/-- `std::numeric_limits<fd_internal::Offset>::max()`: `off_t` is a signed
64-bit integer. -/
def offsetMax : Nat := 2 ^ 63 - 1

/-- `std::numeric_limits<ssize_t>::max()` on a 64-bit platform. -/
def ssizeMax : Nat := 2 ^ 63 - 1

/-- The 1 GiB per-syscall read cap from fd_reader.cc. -/
def gibibyte : Nat := 2 ^ 30

/-- The errno value for an interrupted syscall. -/
def EINTR : Nat := 4

/-! ## CRC32C digester (crc32c_digester.h) -/

/-- The all-ones 32-bit mask used for the CRC32C pre/post inversion. -/
def crcMask : Nat := 0xFFFFFFFF

/-- One bit step of the reflected CRC32C polynomial 0x11edc6f41
(reflected representation 0x82F63B78), as documented in
crc32c_digester.h. -/
def crc32cRound (c : Nat) : Nat :=
  if c % 2 = 1 then (c / 2) ^^^ 0x82F63B78 else c / 2

/-- Iterate `crc32cRound`. -/
def crc32cRounds : Nat → Nat → Nat
  | 0, c => c
  | k + 1, c => crc32cRounds k (crc32cRound c)

/-- Fold one input byte into the running CRC state. -/
def crc32cByte (c b : Nat) : Nat := crc32cRounds 8 (c ^^^ b)

/-- Modelled from the spec: `crc32c::Extend` from the crc32c library, which is
not part of this repository; only its caller `Crc32cDigester::Write` is.
The spec documents the digester as CRC32C with the polynomial 0x11edc6f41
named in crc32c_digester.h (the SSE4.2 polynomial), which is the standard
reflected CRC computed with initial and final inversion by 0xFFFFFFFF;
`Extend` resumes that computation from a previous digest value. The model
reproduces the canonical CRC32C check value 0xE3069283 for "123456789". -/
def crc32cExtend (crc : Nat) (data : List Nat) : Nat :=
  (data.foldl crc32cByte (crc ^^^ crcMask)) ^^^ crcMask

/-- `Crc32cDigester`: holds the running digest `crc_`, initially 0. -/
structure Crc32cDigester where
  crc : Nat
deriving DecidableEq

/-- A freshly constructed digester (`crc_ = 0`). -/
def Crc32cDigester.init : Crc32cDigester := ⟨0⟩

/-- `Crc32cDigester::Write`: `crc_ = crc32c::Extend(crc_, data, size)`. -/
def Crc32cDigester.write (d : Crc32cDigester) (src : List Nat) : Crc32cDigester :=
  ⟨crc32cExtend d.crc src⟩

/-- `Crc32cDigester::Digest`: returns `crc_`. -/
def Crc32cDigester.digest (d : Crc32cDigester) : Nat := d.crc

/-- The 13 bytes of "Hello, World!". -/
def helloWorldBytes : List Nat :=
  [72, 101, 108, 108, 111, 44, 32, 87, 111, 114, 108, 100, 33]

/-! ## Writer floating-point formatting (writer.cc) -/

/-- An abstract floating-point value, keeping exactly the structure the
formatting code inspects: NaN-ness (with sign), infinities, or a finite
value (represented abstractly by an integer tag). -/
inductive FloatVal where
  | nan (negative : Bool)
  | inf (negative : Bool)
  | finite (value : Int)
deriving DecidableEq

/-- `std::isnan`. -/
def FloatVal.isNaN : FloatVal → Bool
  | .nan _ => true
  | _ => false

/-- `std::numeric_limits<...>::quiet_NaN()`: the positive quiet NaN. -/
def quietNaN : FloatVal := .nan false

/-- Modelled from the spec: `absl::StrCat` floating-point formatting, which is
not part of this repository; `Writer::Write(float)` and
`Writer::Write(double)` delegate to it. The spec requires formatted
floating-point output to render every NaN as "nan", never "-nan"
(determinism), matching Abseil's six-digit formatter which tests
`std::isnan` before looking at the sign. -/
def strCatFloat : FloatVal → String
  | .nan _ => "nan"
  | .inf true => "-inf"
  | .inf false => "inf"
  | .finite v => toString v

/-- Modelled from the spec: `absl::Format` with "%g", which is not part of
this repository; `Writer::Write(long double)` delegates to it after
normalizing NaN itself. Renders a (quiet, positive) NaN as "nan". -/
def formatG : FloatVal → String
  | .nan _ => "nan"
  | .inf true => "-inf"
  | .inf false => "inf"
  | .finite v => toString v

/-- `Writer::Write(float)`: `Write(absl::StrCat(src))`; the bytes appended. -/
def Writer.writeFloat (src : FloatVal) : String := strCatFloat src

/-- `Writer::Write(double)`: `Write(absl::StrCat(src))`; the bytes appended. -/
def Writer.writeDouble (src : FloatVal) : String := strCatFloat src

/-- `Writer::Write(long double)`: formats with "%g", replacing any NaN by the
positive quiet NaN first ("Consistently use \"nan\", never \"-nan\"."). -/
def Writer.writeLongDouble (src : FloatVal) : String :=
  formatG (if src.isNaN then quietNaN else src)

/-! ## Position-shifting writer (position_shifting_writer.h, writer.cc) -/

/-- The cursor/buffer core of a `Writer`: abstract buffer addresses
`start ≤ cursor ≤ limitP`, the absolute position `start_pos` of `start`,
and the lifecycle state. -/
structure WriterCore where
  start : Nat
  cursor : Nat
  limitP : Nat
  start_pos : Nat
  state : ObjState
deriving DecidableEq

/-- `Writer::pos() = start_pos + (cursor - start)`. -/
def WriterCore.pos (w : WriterCore) : Nat := w.start_pos + (w.cursor - w.start)

/-- `Writer::available() = limit - cursor`. -/
def WriterCore.available (w : WriterCore) : Nat := w.limitP - w.cursor

/-- `Object::ok()`: healthy iff not failed. -/
def WriterCore.okB (w : WriterCore) : Bool :=
  match w.state with
  | .failed _ => false
  | _ => true

/-- `Object::status()`. -/
def WriterCore.statusOf (w : WriterCore) : Status :=
  match w.state with
  | .failed s => s
  | _ => ⟨.okCode, "", []⟩

/-- `Writer::Fail`: annotates the status with the writer's position
(`Writer::AnnotateStatusImpl`, writer.cc) and latches it; `Writer::OnFail`
clears the buffer pointers. Failing an already failed or closed writer
keeps its state. -/
def writerFail (w : WriterCore) (s : Status) : WriterCore :=
  match w.state with
  | .openOk =>
      { w with
        state := .failed (Annotate s ("at byte " ++ toString (WriterCore.pos w)))
        start := 0, cursor := 0, limitP := 0 }
  | _ => w

/-- `Writer::FailOverflow` (writer.cc):
`Fail(ResourceExhausted("Writer position overflow"))`. -/
def Writer.FailOverflow (w : WriterCore) : WriterCore :=
  writerFail w ⟨.resourceExhausted, "Writer position overflow", []⟩

/-- `Object::FailWithoutAnnotation`: latch the given status verbatim;
buffer pointers are cleared by `OnFail` as for `Fail`. -/
def writerFailNoAnnotate (w : WriterCore) (s : Status) : WriterCore :=
  match w.state with
  | .openOk => { w with state := .failed s, start := 0, cursor := 0, limitP := 0 }
  | _ => w

/-- Modelled from the spec: `PositionShiftingWriterBase::AnnotateOverDest`
is declared in position_shifting_writer.h but defined in
position_shifting_writer.cc, which is not among the sources. Per the spec's
annotation policy it adds the adapter's own shifted-position context. -/
def PositionShiftingWriterBase.AnnotateOverDest (w : WriterCore) (s : Status) : Status :=
  Annotate s ("across position shift at byte " ++ toString (WriterCore.pos w))

/-- `PositionShiftingWriterBase::MakeBuffer` (position_shifting_writer.h):
fails `ResourceExhausted` when `dest.pos() > Position max - base_pos`;
otherwise shares the destination's buffer (`set_buffer(dest.cursor(),
dest.available())`), sets `start_pos = dest.pos() + base_pos`, and fails
with the destination's annotated status if the destination failed. -/
def PositionShiftingWriterBase.MakeBuffer (w : WriterCore) (base_pos : Nat)
    (dest : WriterCore) : WriterCore :=
  if positionMax - base_pos < WriterCore.pos dest then
    Writer.FailOverflow w
  else
    let w1 : WriterCore :=
      { w with
        start := dest.cursor, cursor := dest.cursor,
        limitP := dest.cursor + WriterCore.available dest,
        start_pos := WriterCore.pos dest + base_pos }
    if dest.okB then w1
    else
      writerFailNoAnnotate w1
        (PositionShiftingWriterBase.AnnotateOverDest w1 (WriterCore.statusOf dest))

/-! ## File-descriptor reader (fd_reader.cc), non-Windows branch -/

/-- The kernel's response to one `read`/`pread` syscall: either the bytes it
delivered (an empty list means end-of-file) or a failure with an errno. -/
inductive SysRes where
  | bytes (bs : List Nat)
  | fail (e : Nat)
deriving DecidableEq

/-- A record of one syscall issued by `ReadInternal`: which positioning mode
was used (`pread` vs `read`), the value of `limit_pos` when it was issued
(the offset passed to `pread`), and the requested length. -/
structure SysCall where
  independent : Bool
  offset : Nat
  count : Nat
deriving DecidableEq

/-- The `FdReaderBase` state visible to `ReadInternal`. -/
structure FdReader where
  limit_pos : Nat
  has_independent_pos : Bool
  growing_source : Bool
  exact_size : Option Nat
  state : ObjState
  filename : String
deriving DecidableEq

/-- `FdReaderBase::FailedOperationStatus`: `absl::ErrnoToStatus(errno,
operation + " failed")`. -/
def errnoStatus (e : Nat) (operation : String) : Status :=
  ⟨.errnoCode e, operation ++ " failed", []⟩

/-- `FdReaderBase::AnnotateStatusImpl`: prepends "reading <filename>" when a
filename is known, then delegates to the buffered-reader annotation, which
(modelled from the spec's annotation policy, reader.cc and
buffered_reader.cc are not among the sources) adds the byte position. -/
def fdAnnotate (r : FdReader) (s : Status) : Status :=
  let s1 := if r.filename = "" then s else Annotate s ("reading " ++ r.filename)
  Annotate s1 ("at byte " ++ toString r.limit_pos)

/-- `Object::Fail` for `FdReaderBase`: annotate and latch; failing an already
failed or closed reader keeps its state. -/
def fdFail (r : FdReader) (s : Status) : FdReader :=
  match r.state with
  | .openOk => { r with state := .failed (fdAnnotate r s) }
  | _ => r

/-- Modelled from the spec: `Reader::FailOverflow` (reader.cc is not among
the sources); spec section 7: a position counter overflow raises
`ResourceExhausted`. -/
def fdFailOverflow (r : FdReader) : FdReader :=
  fdFail r ⟨.resourceExhausted, "Reader position overflow", []⟩

/-- The per-syscall length cap of `FdReaderBase::ReadInternal`:
`UnsignedMin(max_length, Offset max - limit_pos, ssize_t max, 1 GiB)`. -/
def fdLengthToRead (r : FdReader) (max_length : Nat) : Nat :=
  min (min max_length (offsetMax - r.limit_pos)) (min ssizeMax gibibyte)

/-- The `for (;;)` loop of `FdReaderBase::ReadInternal` (fd_reader.cc,
non-Windows): on each round it fails `ResourceExhausted` if `limit_pos` has
reached the `Offset` maximum, otherwise issues one `read`/`pread` of at most
`fdLengthToRead` bytes (the next scripted response; a response may not
deliver more than requested, hence the `take`), restarts on `EINTR`, fails
on any other errno, returns `false` on a zero-byte read (recording
`exact_size` for a non-growing source), and otherwise appends the bytes,
advances `limit_pos`, returns `true` once at least `min_length` bytes were
read in total, and loops for the remainder. Returns the result flag, the
final reader state, the bytes accumulated into `dest`, and the trace of the
syscalls issued; `none` when the script is exhausted before the loop
exits. -/
def fdReadLoop : FdReader → Nat → Nat → List SysRes →
    Option (Bool × FdReader × List Nat × List SysCall)
  | r, _, _, [] =>
      if offsetMax ≤ r.limit_pos then some (false, fdFailOverflow r, [], []) else none
  | r, min_length, max_length, res :: rest =>
      if offsetMax ≤ r.limit_pos then some (false, fdFailOverflow r, [], [])
      else
        let count := fdLengthToRead r max_length
        let call : SysCall := ⟨r.has_independent_pos, r.limit_pos, count⟩
        match res with
        | .fail e =>
            if e = EINTR then
              match fdReadLoop r min_length max_length rest with
              | none => none
              | some (ret, r2, dest, trace) => some (ret, r2, dest, call :: trace)
            else
              some (false,
                fdFail r (errnoStatus e (if r.has_independent_pos then "pread()" else "read()")),
                [], [call])
        | .bytes bs =>
            let got := bs.take count
            if got.length = 0 then
              some (false,
                (if r.growing_source then r else { r with exact_size := some r.limit_pos }),
                [], [call])
            else
              let r2 := { r with limit_pos := r.limit_pos + got.length }
              if min_length ≤ got.length then some (true, r2, got, [call])
              else
                match fdReadLoop r2 (min_length - got.length) (max_length - got.length) rest with
                | none => none
                | some (ret, r3, dest, trace) => some (ret, r3, got ++ dest, call :: trace)

/-- `FdReaderBase::ReadInternal(min_length, max_length, dest)` driven by the
scripted syscall responses. -/
def FdReaderBase.ReadInternal (r : FdReader) (min_length max_length : Nat)
    (script : List SysRes) : Option (Bool × FdReader × List Nat × List SysCall) :=
  fdReadLoop r min_length max_length script

/-! ## Zstd reader (zstd_reader.cc) -/

/-- The state of the compressed source `Reader` as seen by the zstd layer:
its position, the bytes currently available in its buffer, its health, the
failure status it reports when unhealthy, and the context string it adds
when asked to annotate a status. -/
structure SrcState where
  pos : Nat
  avail : Nat
  stOk : Bool
  failSt : Status
  note : String
deriving DecidableEq

/-- `src.set_cursor(input.src + input.pos)`: consume `c` bytes of the
source's buffer. -/
def SrcState.advance (src : SrcState) (c : Nat) : SrcState :=
  { src with pos := src.pos + c, avail := src.avail - c }

/-- `Reader::AnnotateStatus` on the source: adds the source's own context. -/
def SrcState.AnnotateStatus (src : SrcState) (s : Status) : Status :=
  Annotate s src.note

/-- Modelled from the spec: `Object::StatusOrAnnotate` (object.h is not among
the sources). Per the spec's annotation policy ("inner-layer errors are
annotated, not replaced — the ultimate root cause is preserved"), if the
object failed this returns its own annotated status, otherwise it annotates
the fallback status supplied by the caller. -/
def SrcState.StatusOrAnnotate (src : SrcState) (s : Status) : Status :=
  if src.stOk then SrcState.AnnotateStatus src s
  else SrcState.AnnotateStatus src src.failSt

/-- The outcome of the `src.Pull(1, result)` call at the bottom of the
decompression loop: the source made `k` more bytes available, or it is
exhausted while still healthy, or it failed with status `s`. -/
inductive PullOutcome where
  | got (k : Nat)
  | eofOk
  | srcFailed (s : Status)
deriving DecidableEq

/-- One scripted response of `ZSTD_decompressStream`: frame end (return 0),
a zstd error, or a nonzero hint; each records how many input bytes the
engine consumed and how many output bytes it produced, and in the `more`
case the outcome of the subsequent `Pull` on the source. -/
inductive ZResp where
  | frameEnd (consumed produced : Nat)
  | zerror (msg : String) (consumed produced : Nat)
  | more (hint consumed produced : Nat) (pull : PullOutcome)
deriving DecidableEq

/-- The `ZstdReaderBase` state. `hasDecompressor` is `decompressor_ !=
nullptr`; `stable_out_buffer` tracks whether `ZSTD_d_stableOutBuffer` was
set on the context. -/
structure ZstdReader where
  hasDecompressor : Bool
  stable_out_buffer : Bool
  just_initialized : Bool
  growing_source : Bool
  truncated : Bool
  exact_size : Option Nat
  limit_pos : Nat
  initial_compressed_pos : Nat
  state : ObjState
deriving DecidableEq

/-- `Object::is_open()`: not closed (a failed-but-unclosed stream still has
a live source and is annotated as open). -/
def ZstdReader.isOpen (r : ZstdReader) : Bool :=
  match r.state with
  | .closedOk => false
  | _ => true

/-- `ZstdReaderBase::AnnotateOverSrc`: clarify that the current position is
the uncompressed position. The annotation uses `pos()`; the model tracks
no buffer window (annotations happen on the buffered slow path, where the
buffer is empty), so `pos()` coincides with `limit_pos`. -/
def ZstdReaderBase.AnnotateOverSrc (r : ZstdReader) (s : Status) : Status :=
  if r.isOpen then Annotate s ("at uncompressed byte " ++ toString r.limit_pos) else s

/-- `ZstdReaderBase::AnnotateStatusImpl`: while open, add "reading truncated
Zstd-compressed stream" when the truncated flag is set, let the source add
its own context, then add the uncompressed position. -/
def ZstdReaderBase.AnnotateStatusImpl (r : ZstdReader) (src : SrcState) (s : Status) : Status :=
  let s1 :=
    if r.isOpen then
      SrcState.AnnotateStatus src
        (if r.truncated then Annotate s "reading truncated Zstd-compressed stream" else s)
    else s
  ZstdReaderBase.AnnotateOverSrc r s1

/-- `Object::Fail` for `ZstdReaderBase`: annotate via `AnnotateStatusImpl`
and latch. -/
def zstdFail (r : ZstdReader) (src : SrcState) (s : Status) : ZstdReader :=
  match r.state with
  | .openOk => { r with state := .failed (ZstdReaderBase.AnnotateStatusImpl r src s) }
  | _ => r

/-- `Object::FailWithoutAnnotation`: latch the given status verbatim. -/
def zstdFailNoAnnotate (r : ZstdReader) (s : Status) : ZstdReader :=
  match r.state with
  | .openOk => { r with state := .failed s }
  | _ => r

/-- Modelled from the spec: `Reader::FailOverflow` (reader.cc is not among
the sources); spec section 7: position counter overflow raises
`ResourceExhausted`. -/
def zstdFailOverflow (r : ZstdReader) (src : SrcState) : ZstdReader :=
  zstdFail r src ⟨.resourceExhausted, "Reader position overflow", []⟩

/-- The result of a run of the decompression loop: the return value with the
final reader and source state, or a marker that the response script ended
while the loop wanted to call the engine again. -/
inductive ReadRes where
  | out (ret : Bool) (r : ZstdReader) (src : SrcState)
  | scriptEnd (r : ZstdReader) (src : SrcState) (outPos : Nat)
deriving DecidableEq

/-- The `for (;;)` loop of `ZstdReaderBase::ReadInternal` (zstd_reader.cc
lines 194-239), driven by scripted engine responses. `outPos` is
`output.pos`, the total bytes produced into `dest` so far. Each round:
call `ZSTD_decompressStream` (consume a script entry), advance the source
cursor by the bytes consumed; on return 0 drop the context, advance
`limit_pos` by `output.pos` and return `output.pos >= min_length`; on a
zstd error fail `InvalidArgument`, advance `limit_pos` and return likewise;
if `output.pos >= effective_min_length` return true; if input remains but
output space is gone fail with position overflow; otherwise `Pull` more
compressed bytes — on pull failure, inherit the source's status if the
source failed, else fail `InvalidArgument("Truncated Zstd-compressed
stream")` unless the source is growing, and set the truncated flag. -/
def zstdReadLoop (min_length eff_min : Nat) :
    ZstdReader → SrcState → Nat → List ZResp → ReadRes
  | r, src, outPos, [] => .scriptEnd r src outPos
  | r, src, outPos, resp :: rest =>
      match resp with
      | .frameEnd c p =>
          .out (decide (min_length ≤ outPos + p))
            { r with hasDecompressor := false, limit_pos := r.limit_pos + (outPos + p) }
            (src.advance c)
      | .zerror msg c p =>
          let src2 := src.advance c
          let rF := zstdFail r src2
            ⟨.invalidArgument, "ZSTD_decompressStream() failed: " ++ msg, []⟩
          .out (decide (min_length ≤ outPos + p))
            { rF with limit_pos := rF.limit_pos + (outPos + p) } src2
      | .more _hint c p pull =>
          let src2 := src.advance c
          if eff_min ≤ outPos + p then
            .out true { r with limit_pos := r.limit_pos + (outPos + p) } src2
          else if c < src.avail then
            .out false
              (zstdFailOverflow { r with limit_pos := r.limit_pos + (outPos + p) } src2) src2
          else
            match pull with
            | .got k =>
                if src2.stOk then
                  zstdReadLoop min_length eff_min r { src2 with avail := k } (outPos + p) rest
                else
                  .out (decide (min_length ≤ outPos + p))
                    (zstdFailNoAnnotate { r with limit_pos := r.limit_pos + (outPos + p) }
                      (ZstdReaderBase.AnnotateOverSrc
                        { r with limit_pos := r.limit_pos + (outPos + p) } src2.failSt)) src2
            | .eofOk =>
                if src2.stOk then
                  let r2 := { r with limit_pos := r.limit_pos + (outPos + p) }
                  let r3 :=
                    if r2.growing_source then r2
                    else zstdFail r2 src2 ⟨.invalidArgument, "Truncated Zstd-compressed stream", []⟩
                  .out (decide (min_length ≤ outPos + p)) { r3 with truncated := true } src2
                else
                  .out (decide (min_length ≤ outPos + p))
                    (zstdFailNoAnnotate { r with limit_pos := r.limit_pos + (outPos + p) }
                      (ZstdReaderBase.AnnotateOverSrc
                        { r with limit_pos := r.limit_pos + (outPos + p) } src2.failSt)) src2
            | .srcFailed s =>
                let src3 := { src2 with stOk := false, failSt := s }
                .out (decide (min_length ≤ outPos + p))
                  (zstdFailNoAnnotate { r with limit_pos := r.limit_pos + (outPos + p) }
                    (ZstdReaderBase.AnnotateOverSrc
                      { r with limit_pos := r.limit_pos + (outPos + p) } s)) src3

/-- The condition of zstd_reader.cc lines 177-178 gating the stable-output
optimization: `just_initialized_ && !growing_source_ && exact_size() !=
nullopt && max_length >= *exact_size()`. -/
def ZstdReaderBase.stableCondition (r : ZstdReader) (max_length : Nat) : Bool :=
  r.just_initialized && !r.growing_source &&
    (match r.exact_size with
     | some s => decide (s ≤ max_length)
     | none => false)

/-- Lines 172-175: when just initialized with the size still unknown, probe
the frame header again ("in case the source has grown"); `probe` is the
result `ZstdUncompressedSize(src)` would return. -/
def ZstdReaderBase.afterProbe (r : ZstdReader) (probe : Option Nat) : ZstdReader :=
  if r.just_initialized && r.exact_size.isNone then { r with exact_size := probe } else r

/-- The pre-loop setup of `ZstdReaderBase::ReadInternal` (lines 171-190):
clear the truncated flag, re-probe the uncompressed size if needed, enable
`ZSTD_d_stableOutBuffer` and raise the effective minimum length to the
maximum `size_t` when `stableCondition` holds, and clear
`just_initialized`. Returns the updated reader and the effective minimum
length used by the loop. -/
def ZstdReaderBase.readSetup (r : ZstdReader) (probe : Option Nat)
    (min_length max_length : Nat) : ZstdReader × Nat :=
  let r1 := ZstdReaderBase.afterProbe { r with truncated := false } probe
  let stable := ZstdReaderBase.stableCondition r1 max_length
  let r2 := if stable then { r1 with stable_out_buffer := true } else r1
  ({ r2 with just_initialized := false }, if stable then sizeTMax else min_length)

/-- `ZstdReaderBase::ReadInternal(min_length, max_length, dest)`: returns
`false` immediately when the decompressor is gone, otherwise runs the setup
and the decompression loop. (The clamp of `max_length` to the remaining
`Position` range only bounds `output.size`, which scripted engine responses
make irrelevant here.) -/
def ZstdReaderBase.ReadInternal (r : ZstdReader) (src : SrcState) (probe : Option Nat)
    (min_length max_length : Nat) (script : List ZResp) : ReadRes :=
  if !r.hasDecompressor then .out false r src
  else
    let setup := ZstdReaderBase.readSetup r probe min_length max_length
    zstdReadLoop min_length setup.2 setup.1 src 0 script

/-- `ZstdReaderBase::PullSlow` (lines 149-157): after all data have been
decompressed (`decompressor_ == nullptr`), return false without delegating
to `BufferedReader::PullSlow`, so no buffer is allocated; otherwise
delegate (`bufferedPull` stands for the base-class slow path). -/
def ZstdReaderBase.PullSlow (r : ZstdReader)
    (bufferedPull : ZstdReader → Bool × ZstdReader) : Bool × ZstdReader :=
  if !r.hasDecompressor then (false, r) else bufferedPull r

/-- `ZstdReaderBase::SupportsRewind` (lines 247-250): the source exists and
itself supports rewind. -/
def ZstdReaderBase.SupportsRewind (srcPresent srcRewind : Bool) : Bool :=
  srcPresent && srcRewind

/-- The outcome of `src.Seek(initial_compressed_pos_)`: success, failure
with the source still healthy (the source got truncated), or failure that
latched a failure status on the source. -/
inductive SeekOutcome where
  | seekOk
  | seekEofOk
  | seekFailed (s : Status)
deriving DecidableEq

/-- `ZstdReaderBase::SeekBehindBuffer` (lines 252-276). For a backward seek
(`new_pos <= limit_pos`): require health, clear the truncated flag, reset
`limit_pos` to 0, drop the decompression context, seek the source back to
`initial_compressed_pos_`; on seek failure fail with
`StatusOrAnnotate(DataLoss("Zstd-compressed stream got truncated"))`
annotated over the source; on success rebuild the context
(`InitializeDecompressor`: fresh context, so no stable-output parameter,
`just_initialized` set, `exact_size` re-probed as `probe`) and, unless the
target is 0, delegate to `BufferedReader::SeekBehindBuffer` (`baseSeek`,
the default buffered skip path) to discard bytes up to `new_pos`. Forward
seeks delegate directly. -/
def ZstdReaderBase.SeekBehindBuffer (r : ZstdReader) (src : SrcState) (new_pos : Nat)
    (probe : Option Nat) (seek : SeekOutcome)
    (baseSeek : ZstdReader → SrcState → Nat → Bool × ZstdReader × SrcState) :
    Bool × ZstdReader × SrcState :=
  if new_pos ≤ r.limit_pos then
    match r.state with
    | .openOk =>
        let r1 := { r with truncated := false, limit_pos := 0, hasDecompressor := false }
        match seek with
        | .seekOk =>
            let src1 := { src with pos := r.initial_compressed_pos, avail := 0 }
            let r2 := { r1 with hasDecompressor := true, stable_out_buffer := false,
                                just_initialized := true, exact_size := probe }
            if new_pos = 0 then (true, r2, src1) else baseSeek r2 src1 new_pos
        | .seekEofOk =>
            (false,
             zstdFailNoAnnotate r1
               (ZstdReaderBase.AnnotateOverSrc r1
                 (SrcState.StatusOrAnnotate src
                   ⟨.dataLoss, "Zstd-compressed stream got truncated", []⟩)),
             src)
        | .seekFailed s =>
            let src1 := { src with stOk := false, failSt := s }
            (false,
             zstdFailNoAnnotate r1
               (ZstdReaderBase.AnnotateOverSrc r1
                 (SrcState.StatusOrAnnotate src1
                   ⟨.dataLoss, "Zstd-compressed stream got truncated", []⟩)),
             src1)
    | _ => (false, r, src)
  else baseSeek r src new_pos

/-- `ZstdReaderBase::Done` (lines 117-126): if the stream ended truncated
while the source was growing, fail with `InvalidArgument("Truncated
Zstd-compressed stream")` annotated by the source and with the uncompressed
position; then release the decompression context. -/
def ZstdReaderBase.Done (r : ZstdReader) (src : SrcState) : ZstdReader :=
  let r1 :=
    if r.truncated && r.growing_source then
      zstdFailNoAnnotate r
        (ZstdReaderBase.AnnotateOverSrc r
          (SrcState.AnnotateStatus src
            ⟨.invalidArgument, "Truncated Zstd-compressed stream", []⟩))
    else r
  { r1 with hasDecompressor := false }

/-! ## Theorems -/

/-- C5 counterexample: the digest of the 13 bytes of "Hello, World!" computed
by a fresh `Crc32cDigester` is not the value 0x4BA3B6E5 stated by the
claim (it is 0x4D551068; the model reproduces the canonical CRC32C check
value for "123456789", proved alongside, so the polynomial and
conventions are the documented ones). -/
theorem crc32c_hello_world_value_refuted :
    Crc32cDigester.digest (Crc32cDigester.write Crc32cDigester.init helloWorldBytes) ≠ 0x4BA3B6E5 ∧
    crc32cExtend 0 [0x31, 0x32, 0x33, 0x34, 0x35, 0x36, 0x37, 0x38, 0x39] = 0xE3069283 := by
  constructor
  · decide
  · decide

/-- C5 (amended): updates of `Crc32cDigester` are associative over byte
concatenation — for every digester state and every split `B = B1 ++ B2`,
`Write(B1); Write(B2)` yields the same `Digest()` as `Write(B)` — and the
13 bytes of "Hello, World!" yield digest 0x4D551068, in one slice or in
any two slices. -/
theorem crc32c_write_associative :
    (∀ (d : Crc32cDigester) (B1 B2 : List Nat),
        Crc32cDigester.digest (Crc32cDigester.write (Crc32cDigester.write d B1) B2) =
          Crc32cDigester.digest (Crc32cDigester.write d (B1 ++ B2))) ∧
    Crc32cDigester.digest (Crc32cDigester.write Crc32cDigester.init helloWorldBytes) =
      0x4D551068 ∧
    (∀ i : Nat,
        Crc32cDigester.digest
            (Crc32cDigester.write
              (Crc32cDigester.write Crc32cDigester.init (helloWorldBytes.take i))
              (helloWorldBytes.drop i)) = 0x4D551068) := by
  have hassoc : ∀ (d : Crc32cDigester) (B1 B2 : List Nat),
      Crc32cDigester.digest (Crc32cDigester.write (Crc32cDigester.write d B1) B2) =
        Crc32cDigester.digest (Crc32cDigester.write d (B1 ++ B2)) := by
    intro d B1 B2
    simp only [Crc32cDigester.digest, Crc32cDigester.write, crc32cExtend, List.foldl_append,
      Nat.xor_cancel_right]
  have hone : Crc32cDigester.digest (Crc32cDigester.write Crc32cDigester.init helloWorldBytes) =
      0x4D551068 := by decide
  refine ⟨hassoc, hone, ?_⟩
  intro i
  calc Crc32cDigester.digest
        (Crc32cDigester.write
          (Crc32cDigester.write Crc32cDigester.init (helloWorldBytes.take i))
          (helloWorldBytes.drop i))
      = Crc32cDigester.digest
          (Crc32cDigester.write Crc32cDigester.init
            (helloWorldBytes.take i ++ helloWorldBytes.drop i)) := hassoc _ _ _
    _ = 0x4D551068 := by rw [List.take_append_drop]; exact hone

/-- C7: for every floating-point value that is a NaN (negative NaN
included), `Writer::Write(float)`, `Writer::Write(double)` and
`Writer::Write(long double)` produce the same bytes as for the positive
quiet NaN, so the formatted output never distinguishes "-nan" from
"nan". -/
theorem writer_nan_normalized (v : FloatVal) (h : v.isNaN = true) :
    Writer.writeFloat v = Writer.writeFloat quietNaN ∧
    Writer.writeDouble v = Writer.writeDouble quietNaN ∧
    Writer.writeLongDouble v = Writer.writeLongDouble quietNaN := by
  cases v with
  | nan neg => refine ⟨rfl, rfl, ?_⟩; cases neg <;> rfl
  | inf neg => simp [FloatVal.isNaN] at h
  | finite x => simp [FloatVal.isNaN] at h

/-- Witness for C7 at the negative NaN. -/
theorem writer_nan_normalized_witness :
    (FloatVal.nan true).isNaN = true ∧
    (Writer.writeFloat (.nan true) = Writer.writeFloat quietNaN ∧
     Writer.writeDouble (.nan true) = Writer.writeDouble quietNaN ∧
     Writer.writeLongDouble (.nan true) = Writer.writeLongDouble quietNaN) :=
  ⟨by decide, writer_nan_normalized (.nan true) (by decide)⟩

/-- C9: `PositionShiftingWriterBase::MakeBuffer` fails `ResourceExhausted`
whenever the destination's position exceeds `Position max - base_pos`;
otherwise, whenever the adapter is healthy after `MakeBuffer`, its buffer
pointers equal the destination's (`start = dest.cursor`,
`limit = dest.limit`) and `start_pos = dest.pos + base_pos`. -/
theorem psw_makeBuffer_overflow_and_share (w dest : WriterCore) (base_pos : Nat)
    (hw : w.state = .openOk) (hcl : dest.cursor ≤ dest.limitP) :
    (positionMax - base_pos < WriterCore.pos dest →
      ∃ s, (PositionShiftingWriterBase.MakeBuffer w base_pos dest).state = .failed s ∧
        s.code = .resourceExhausted) ∧
    (WriterCore.pos dest ≤ positionMax - base_pos →
      (PositionShiftingWriterBase.MakeBuffer w base_pos dest).okB = true →
      (PositionShiftingWriterBase.MakeBuffer w base_pos dest).start = dest.cursor ∧
      (PositionShiftingWriterBase.MakeBuffer w base_pos dest).cursor = dest.cursor ∧
      (PositionShiftingWriterBase.MakeBuffer w base_pos dest).limitP = dest.limitP ∧
      (PositionShiftingWriterBase.MakeBuffer w base_pos dest).start_pos =
        WriterCore.pos dest + base_pos) := by
  constructor
  · intro hover
    unfold PositionShiftingWriterBase.MakeBuffer
    rw [if_pos hover]
    unfold Writer.FailOverflow writerFail
    rw [hw]
    exact ⟨_, rfl, rfl⟩
  · intro hle hok
    unfold PositionShiftingWriterBase.MakeBuffer at hok ⊢
    rw [if_neg (Nat.not_lt.mpr hle)] at hok ⊢
    cases hds : dest.state with
    | openOk =>
        refine ⟨?_, ?_, ?_, ?_⟩ <;>
          simp [WriterCore.okB, hds, WriterCore.available] <;> omega
    | closedOk =>
        refine ⟨?_, ?_, ?_, ?_⟩ <;>
          simp [WriterCore.okB, hds, WriterCore.available] <;> omega
    | failed s =>
        simp [WriterCore.okB, hds, writerFailNoAnnotate, hw] at hok

/-- Witness for C9: a concrete healthy adapter and a healthy destination.
The overflow branch at `base_pos = positionMax` and destination position 1,
and the sharing branch at `base_pos = 0`. -/
theorem psw_makeBuffer_witness :
    (∃ s, (PositionShiftingWriterBase.MakeBuffer ⟨0, 0, 0, 0, .openOk⟩ positionMax
        ⟨0, 1, 4, 0, .openOk⟩).state = .failed s ∧ s.code = .resourceExhausted) ∧
    ((PositionShiftingWriterBase.MakeBuffer ⟨0, 0, 0, 0, .openOk⟩ 0
        ⟨0, 1, 4, 0, .openOk⟩).start = 1 ∧
     (PositionShiftingWriterBase.MakeBuffer ⟨0, 0, 0, 0, .openOk⟩ 0
        ⟨0, 1, 4, 0, .openOk⟩).cursor = 1 ∧
     (PositionShiftingWriterBase.MakeBuffer ⟨0, 0, 0, 0, .openOk⟩ 0
        ⟨0, 1, 4, 0, .openOk⟩).limitP = 4 ∧
     (PositionShiftingWriterBase.MakeBuffer ⟨0, 0, 0, 0, .openOk⟩ 0
        ⟨0, 1, 4, 0, .openOk⟩).start_pos = WriterCore.pos ⟨0, 1, 4, 0, .openOk⟩ + 0) := by
  constructor
  · exact (psw_makeBuffer_overflow_and_share ⟨0, 0, 0, 0, .openOk⟩ ⟨0, 1, 4, 0, .openOk⟩
      positionMax rfl (by decide)).1 (by decide)
  · exact (psw_makeBuffer_overflow_and_share ⟨0, 0, 0, 0, .openOk⟩ ⟨0, 1, 4, 0, .openOk⟩
      0 rfl (by decide)).2 (by decide) (by decide)

/-- C10: closing a `ZstdReaderBase` whose `truncated` flag is set while
`growing_source` is true makes `Done` fail the reader with
`InvalidArgument("Truncated Zstd-compressed stream")` annotated with the
source's context and the uncompressed position, even though the reader was
still healthy when `Done` began. -/
theorem zstd_done_truncated_growing (r : ZstdReader) (src : SrcState)
    (hr : r.state = .openOk) (ht : r.truncated = true) (hg : r.growing_source = true) :
    (ZstdReaderBase.Done r src).state =
      .failed ⟨.invalidArgument, "Truncated Zstd-compressed stream",
               [src.note, "at uncompressed byte " ++ toString r.limit_pos]⟩ := by
  unfold ZstdReaderBase.Done
  rw [ht, hg]
  simp only [Bool.and_self, if_pos]
  unfold zstdFailNoAnnotate
  rw [hr]
  simp [ZstdReaderBase.AnnotateOverSrc, ZstdReader.isOpen, hr, SrcState.AnnotateStatus, Annotate]

/-- Witness for C10 at a concrete truncated growing-source reader. -/
theorem zstd_done_truncated_growing_witness :
    (ZstdReaderBase.Done ⟨true, false, false, true, true, none, 42, 0, .openOk⟩
        ⟨0, 0, true, ⟨.okCode, "", []⟩, "reading the source"⟩).state =
      .failed ⟨.invalidArgument, "Truncated Zstd-compressed stream",
               ["reading the source", "at uncompressed byte 42"]⟩ :=
  zstd_done_truncated_growing ⟨true, false, false, true, true, none, 42, 0, .openOk⟩
    ⟨0, 0, true, ⟨.okCode, "", []⟩, "reading the source"⟩ rfl rfl rfl

/-- C4: when `ZSTD_decompressStream` returns 0 (frame end), the loop of
`ZstdReaderBase::ReadInternal` drops the decompression context, advances
`limit_pos` by the bytes produced, and returns true iff at least
`min_length` bytes were produced, leaving the stream state untouched (so a
healthy stream stays healthy: end-of-source is not an error); afterwards,
with the decompressor gone, `PullSlow` returns false immediately with the
state unchanged, for every base-class slow path (so it never delegates to
`BufferedReader::PullSlow` and allocates no buffer). -/
theorem zstd_frame_end_and_pull_slow :
    (∀ (min_length eff_min : Nat) (r : ZstdReader) (src : SrcState) (outPos : Nat)
       (c p : Nat) (rest : List ZResp),
       zstdReadLoop min_length eff_min r src outPos (.frameEnd c p :: rest) =
         .out (decide (min_length ≤ outPos + p))
           { r with hasDecompressor := false, limit_pos := r.limit_pos + (outPos + p) }
           (src.advance c)) ∧
    (∀ (r : ZstdReader) (bufferedPull : ZstdReader → Bool × ZstdReader),
       r.hasDecompressor = false →
       ZstdReaderBase.PullSlow r bufferedPull = (false, r)) := by
  constructor
  · intro min_length eff_min r src outPos c p rest
    rfl
  · intro r bufferedPull h
    simp [ZstdReaderBase.PullSlow, h]

/-- Witness for C4: a concrete frame-end run producing 3 bytes with
`min_length = 2` returns true, and `PullSlow` on the resulting reader
(decompressor gone) returns false for an arbitrary concrete base path. -/
theorem zstd_frame_end_and_pull_slow_witness :
    zstdReadLoop 2 2 ⟨true, false, false, false, false, none, 0, 0, .openOk⟩
        ⟨0, 3, true, ⟨.okCode, "", []⟩, ""⟩ 0 [.frameEnd 3 3] =
      .out true ⟨false, false, false, false, false, none, 3, 0, .openOk⟩
        ⟨3, 0, true, ⟨.okCode, "", []⟩, ""⟩ ∧
    ZstdReaderBase.PullSlow ⟨false, false, false, false, false, none, 3, 0, .openOk⟩
        (fun r => (true, r)) = (false, ⟨false, false, false, false, false, none, 3, 0, .openOk⟩) := by
  constructor
  · have h := zstd_frame_end_and_pull_slow.1 2 2
      ⟨true, false, false, false, false, none, 0, 0, .openOk⟩
      ⟨0, 3, true, ⟨.okCode, "", []⟩, ""⟩ 0 3 3 []
    rw [h]
    decide
  · exact zstd_frame_end_and_pull_slow.2 ⟨false, false, false, false, false, none, 3, 0, .openOk⟩
      (fun r => (true, r)) rfl

/-- C3 counterexample: a reader that is just initialized, non-growing, with
`exact_size` UNKNOWN at the start of the call, where the in-call re-probe
(zstd_reader.cc lines 172-175) discovers the size 5; with `max_length = 10
>= 5`, `ReadInternal` enables `ZSTD_d_stableOutBuffer` even though
`exact_size` was not known at the start of the call, refuting the claim
that the parameter is set only when all predicates hold on entry. -/
theorem zstd_stable_enabled_despite_unknown_entry_size :
    (⟨true, false, true, false, false, none, 0, 0, .openOk⟩ : ZstdReader).exact_size = none ∧
    ZstdReaderBase.ReadInternal ⟨true, false, true, false, false, none, 0, 0, .openOk⟩
        ⟨0, 0, true, ⟨.okCode, "", []⟩, ""⟩ (some 5) 1 10 [] =
      .scriptEnd ⟨true, true, false, false, false, some 5, 0, 0, .openOk⟩
        ⟨0, 0, true, ⟨.okCode, "", []⟩, ""⟩ 0 := by
  constructor
  · rfl
  · decide

/-- C3 (amended): `ZstdReaderBase::ReadInternal` enables
`ZSTD_d_stableOutBuffer` and raises the effective minimum length to the
maximum `size_t` exactly when, after the top-of-call re-probe of the frame
header (which can set `exact_size` when the decoder was just initialized
and the size was unknown at entry), all of these hold: the decoder was
just initialized, `growing_source` is false, `exact_size` is known, and
`max_length >= *exact_size`; if any of them fails, the parameter stays
unset and the general path (`effective_min_length = min_length`) is used.
The last conjunct ties the setup to `ReadInternal` itself. -/
theorem zstd_stable_output_condition (r : ZstdReader) (probe : Option Nat)
    (min_length max_length : Nat) (h0 : r.stable_out_buffer = false) :
    ((r.just_initialized = true ∧ r.growing_source = false ∧
      ∃ s, (ZstdReaderBase.afterProbe { r with truncated := false } probe).exact_size = some s ∧
        s ≤ max_length) →
      (ZstdReaderBase.readSetup r probe min_length max_length).1.stable_out_buffer = true ∧
      (ZstdReaderBase.readSetup r probe min_length max_length).2 = sizeTMax) ∧
    (¬(r.just_initialized = true ∧ r.growing_source = false ∧
      ∃ s, (ZstdReaderBase.afterProbe { r with truncated := false } probe).exact_size = some s ∧
        s ≤ max_length) →
      (ZstdReaderBase.readSetup r probe min_length max_length).1.stable_out_buffer = false ∧
      (ZstdReaderBase.readSetup r probe min_length max_length).2 = min_length) ∧
    (∀ (src : SrcState) (script : List ZResp), r.hasDecompressor = true →
      ZstdReaderBase.ReadInternal r src probe min_length max_length script =
        zstdReadLoop min_length (ZstdReaderBase.readSetup r probe min_length max_length).2
          (ZstdReaderBase.readSetup r probe min_length max_length).1 src 0 script) := by
  have hcond : ZstdReaderBase.stableCondition
        (ZstdReaderBase.afterProbe { r with truncated := false } probe) max_length = true ↔
      (r.just_initialized = true ∧ r.growing_source = false ∧
        ∃ s, (ZstdReaderBase.afterProbe { r with truncated := false } probe).exact_size = some s ∧
          s ≤ max_length) := by
    have hj : (ZstdReaderBase.afterProbe { r with truncated := false } probe).just_initialized =
        r.just_initialized := by
      unfold ZstdReaderBase.afterProbe
      split <;> rfl
    have hgrow : (ZstdReaderBase.afterProbe { r with truncated := false } probe).growing_source =
        r.growing_source := by
      unfold ZstdReaderBase.afterProbe
      split <;> rfl
    unfold ZstdReaderBase.stableCondition
    rw [hj, hgrow]
    cases hx : (ZstdReaderBase.afterProbe { r with truncated := false } probe).exact_size with
    | none => simp
    | some s => simp [Bool.and_eq_true, Bool.not_eq_true', and_assoc]
  refine ⟨?_, ?_, ?_⟩
  · intro hc
    have hst := hcond.mpr hc
    simp [ZstdReaderBase.readSetup, hst]
  · intro hc
    have hfalse : ZstdReaderBase.stableCondition
        (ZstdReaderBase.afterProbe { r with truncated := false } probe) max_length = false := by
      cases hb : ZstdReaderBase.stableCondition
          (ZstdReaderBase.afterProbe { r with truncated := false } probe) max_length with
        | true => exact absurd (hcond.mp hb) hc
        | false => rfl
    have hsame : (ZstdReaderBase.afterProbe { r with truncated := false } probe).stable_out_buffer =
        false := by
      unfold ZstdReaderBase.afterProbe
      split <;> simpa using h0
    simp [ZstdReaderBase.readSetup, hfalse, hsame]
  · intro src script h
    simp [ZstdReaderBase.ReadInternal, h]

/-- Witness for C3 (amended): a just-initialized non-growing reader with
known size 5 and `max_length = 10` gets the stable-output promise; the
same reader with `max_length = 4 < 5` does not. -/
theorem zstd_stable_output_condition_witness :
    ((ZstdReaderBase.readSetup ⟨true, false, true, false, false, some 5, 0, 0, .openOk⟩
        none 1 10).1.stable_out_buffer = true ∧
     (ZstdReaderBase.readSetup ⟨true, false, true, false, false, some 5, 0, 0, .openOk⟩
        none 1 10).2 = sizeTMax) ∧
    ((ZstdReaderBase.readSetup ⟨true, false, true, false, false, some 5, 0, 0, .openOk⟩
        none 1 4).1.stable_out_buffer = false ∧
     (ZstdReaderBase.readSetup ⟨true, false, true, false, false, some 5, 0, 0, .openOk⟩
        none 1 4).2 = 1) := by
  constructor
  · exact (zstd_stable_output_condition ⟨true, false, true, false, false, some 5, 0, 0, .openOk⟩
      none 1 10 rfl).1 ⟨rfl, rfl, 5, by decide, by decide⟩
  · exact (zstd_stable_output_condition ⟨true, false, true, false, false, some 5, 0, 0, .openOk⟩
      none 1 4 rfl).2.1
      (by rintro ⟨-, -, s, hs, hle⟩; simp [ZstdReaderBase.afterProbe] at hs; omega)

/-- `Annotate` never changes the root code of a status. -/
theorem annotate_code (s : Status) (d : String) : (Annotate s d).code = s.code := rfl

/-- `Annotate` never changes the root message of a status. -/
theorem annotate_message (s : Status) (d : String) : (Annotate s d).message = s.message := rfl

/-- `ZstdReaderBase::AnnotateStatusImpl` preserves the root code and message
of the status it annotates. -/
theorem zstd_annotateStatusImpl_root (r : ZstdReader) (src : SrcState) (s : Status) :
    (ZstdReaderBase.AnnotateStatusImpl r src s).code = s.code ∧
    (ZstdReaderBase.AnnotateStatusImpl r src s).message = s.message := by
  unfold ZstdReaderBase.AnnotateStatusImpl ZstdReaderBase.AnnotateOverSrc
  unfold SrcState.AnnotateStatus Annotate
  split_ifs <;> simp

/-- C1: in the loop of `ZstdReaderBase::ReadInternal`, when the engine asks
for more input (nonzero non-error result), all available compressed bytes
were consumed, fewer than the effective minimum bytes were produced, and
the source's `Pull` then fails: if the source itself is still healthy, the
reader fails `InvalidArgument("Truncated Zstd-compressed stream")` when
`growing_source` is false, and with `growing_source` true it merely sets
`truncated`, stays healthy, and returns false; if instead the source
itself failed (either the `Pull` latched a failure or the source was
already failed), the reader inherits the source's own failure status
annotated with the uncompressed position, not a replacement. The first
conjunct records that for a growing source the effective minimum length
used by `ReadInternal` is always `min_length` (the stable-output promise
is never made), which discharges the `eff_min = min_length` premise of the
growing case for every actual run. -/
theorem zstd_truncated_source_handling :
    (∀ (r : ZstdReader) (probe : Option Nat) (min_length max_length : Nat),
       r.growing_source = true →
       (ZstdReaderBase.readSetup r probe min_length max_length).2 = min_length) ∧
    (∀ (min_length eff_min : Nat) (r : ZstdReader) (src : SrcState) (outPos : Nat)
       (hint c p : Nat) (pull : PullOutcome) (rest : List ZResp),
       r.state = .openOk → c = src.avail → outPos + p < eff_min →
       ((pull = .eofOk → src.stOk = true → r.growing_source = false →
          ∃ rO s, zstdReadLoop min_length eff_min r src outPos (.more hint c p pull :: rest) =
              .out (decide (min_length ≤ outPos + p)) rO (src.advance c) ∧
            rO.state = .failed s ∧ s.code = .invalidArgument ∧
            s.message = "Truncated Zstd-compressed stream" ∧ rO.truncated = true) ∧
        (pull = .eofOk → src.stOk = true → r.growing_source = true → eff_min = min_length →
          ∃ rO, zstdReadLoop min_length eff_min r src outPos (.more hint c p pull :: rest) =
              .out false rO (src.advance c) ∧
            rO.truncated = true ∧ rO.state = .openOk) ∧
        (∀ sF, pull = .srcFailed sF →
          ∃ rO, zstdReadLoop min_length eff_min r src outPos (.more hint c p pull :: rest) =
              .out (decide (min_length ≤ outPos + p)) rO
                { src.advance c with stOk := false, failSt := sF } ∧
            rO.state = .failed (Annotate sF
              ("at uncompressed byte " ++ toString (r.limit_pos + (outPos + p))))) ∧
        (src.stOk = false → (pull = .eofOk ∨ ∃ k, pull = .got k) →
          ∃ rO, zstdReadLoop min_length eff_min r src outPos (.more hint c p pull :: rest) =
              .out (decide (min_length ≤ outPos + p)) rO (src.advance c) ∧
            rO.state = .failed (Annotate src.failSt
              ("at uncompressed byte " ++ toString (r.limit_pos + (outPos + p))))))) := by
  constructor
  · intro r probe min_length max_length hg
    have hgrow : (ZstdReaderBase.afterProbe { r with truncated := false } probe).growing_source =
        true := by
      unfold ZstdReaderBase.afterProbe
      split <;> simpa using hg
    have h1 : ZstdReaderBase.stableCondition
        (ZstdReaderBase.afterProbe { r with truncated := false } probe) max_length = false := by
      unfold ZstdReaderBase.stableCondition
      rw [hgrow]
      simp
    simp [ZstdReaderBase.readSetup, h1]
  · intro min_length eff_min r src outPos hint c p pull rest hr hc hlt
    subst hc
    have hne : ¬ eff_min ≤ outPos + p := Nat.not_le.mpr hlt
    have hnlt : ¬ src.avail < src.avail := Nat.lt_irrefl _
    refine ⟨?_, ?_, ?_, ?_⟩
    · rintro rfl hsrc hg
      simp only [zstdReadLoop, if_neg hne, if_neg hnlt, SrcState.advance]
      simp only [hsrc, if_pos]
      rw [hg]
      simp only [Bool.false_eq_true, if_neg]
      unfold zstdFail
      rw [hr]
      refine ⟨_, _, rfl, rfl, ?_, ?_, rfl⟩
      · exact (zstd_annotateStatusImpl_root _ _ _).1
      · exact (zstd_annotateStatusImpl_root _ _ _).2
    · rintro rfl hsrc hg heff
      simp only [zstdReadLoop, if_neg hne, if_neg hnlt, SrcState.advance]
      simp only [hsrc, if_pos]
      rw [hg]
      simp only [if_pos]
      have hret : decide (min_length ≤ outPos + p) = false := by
        subst heff
        exact decide_eq_false (Nat.not_le.mpr hlt)
      rw [hret]
      exact ⟨_, rfl, rfl, hr⟩
    · rintro sF rfl
      simp only [zstdReadLoop, if_neg hne, if_neg hnlt, SrcState.advance]
      unfold zstdFailNoAnnotate
      rw [hr]
      refine ⟨_, rfl, ?_⟩
      simp [ZstdReaderBase.AnnotateOverSrc, ZstdReader.isOpen, hr]
    · intro hsrc hpull
      rcases hpull with rfl | ⟨k, rfl⟩
      · simp only [zstdReadLoop, if_neg hne, if_neg hnlt, SrcState.advance]
        simp only [hsrc, Bool.false_eq_true, if_neg]
        unfold zstdFailNoAnnotate
        rw [hr]
        refine ⟨_, rfl, ?_⟩
        simp [ZstdReaderBase.AnnotateOverSrc, ZstdReader.isOpen, hr]
      · simp only [zstdReadLoop, if_neg hne, if_neg hnlt, SrcState.advance]
        simp only [hsrc, Bool.false_eq_true, if_neg]
        unfold zstdFailNoAnnotate
        rw [hr]
        refine ⟨_, rfl, ?_⟩
        simp [ZstdReaderBase.AnnotateOverSrc, ZstdReader.isOpen, hr]

/-- Witness for C1: a growing-source reader whose source is exhausted
mid-frame with the source still healthy: the read returns false, the
reader stays healthy and its `truncated` flag is set. -/
theorem zstd_truncated_source_handling_witness :
    ∃ rO, zstdReadLoop 1 1 ⟨true, false, false, true, false, none, 0, 0, .openOk⟩
        ⟨4, 0, true, ⟨.okCode, "", []⟩, ""⟩ 0 [.more 7 0 0 .eofOk] =
      .out false rO (SrcState.advance ⟨4, 0, true, ⟨.okCode, "", []⟩, ""⟩ 0) ∧
      rO.truncated = true ∧ rO.state = .openOk :=
  (zstd_truncated_source_handling.2 1 1 ⟨true, false, false, true, false, none, 0, 0, .openOk⟩
      ⟨4, 0, true, ⟨.okCode, "", []⟩, ""⟩ 0 7 0 0 .eofOk [] rfl rfl (by decide)).2.1
    rfl rfl rfl rfl

/-- C6 counterexample: when the source's `Seek` back to
`initial_compressed_pos` fails after latching a failure on the source
itself (here `Unimplemented`), `SeekBehindBuffer` inherits the source's own
annotated status via `StatusOrAnnotate` instead of failing
`DataLoss("Zstd-compressed stream got truncated")`, refuting the claim
that a source seek failure always yields `DataLoss`. -/
theorem zstd_seek_failure_inherits_source_status :
    (ZstdReaderBase.SeekBehindBuffer ⟨true, false, false, false, false, some 5, 10, 3, .openOk⟩
        ⟨7, 0, true, ⟨.okCode, "", []⟩, "reading foo"⟩ 4 none
        (.seekFailed ⟨.unimplemented, "Reader::Seek() not supported", []⟩)
        (fun a b _ => (true, a, b))).2.1.state =
      .failed ⟨.unimplemented, "Reader::Seek() not supported",
               ["reading foo", "at uncompressed byte 0"]⟩ ∧
    StatusCode.unimplemented ≠ StatusCode.dataLoss := by
  constructor
  · decide
  · decide

/-- C6 (amended): for `new_pos < limit_pos` on a healthy reader,
`ZstdReaderBase::SeekBehindBuffer` seeks the compressed source back to
`initial_compressed_pos`, drops and rebuilds the decompression context
(fresh context: no stable-output parameter, `just_initialized` set,
`exact_size` re-probed) and discards decompressed bytes up to `new_pos`
via the default buffered skip path (`baseSeek`, universally quantified);
if the source seek fails while the source is still healthy, the reader
fails `DataLoss("Zstd-compressed stream got truncated")`; if the source
itself failed, the reader inherits the source's (annotated) failure status
instead. The rewind requires the source to support it:
`ZstdReaderBase::SupportsRewind` returns exactly the source's rewind
support. -/
theorem zstd_seekBehindBuffer_rewind (r : ZstdReader) (src : SrcState) (new_pos : Nat)
    (probe : Option Nat)
    (baseSeek : ZstdReader → SrcState → Nat → Bool × ZstdReader × SrcState)
    (hr : r.state = .openOk) (hlt : new_pos < r.limit_pos) :
    (ZstdReaderBase.SeekBehindBuffer r src new_pos probe .seekOk baseSeek =
       (if new_pos = 0 then
          (true,
           { r with truncated := false, limit_pos := 0, hasDecompressor := true,
                    stable_out_buffer := false, just_initialized := true, exact_size := probe },
           { src with pos := r.initial_compressed_pos, avail := 0 })
        else
          baseSeek
            { r with truncated := false, limit_pos := 0, hasDecompressor := true,
                     stable_out_buffer := false, just_initialized := true, exact_size := probe }
            { src with pos := r.initial_compressed_pos, avail := 0 } new_pos)) ∧
    (src.stOk = true →
      ∃ rO s, ZstdReaderBase.SeekBehindBuffer r src new_pos probe .seekEofOk baseSeek =
          (false, rO, src) ∧
        rO.state = .failed s ∧ s.code = .dataLoss ∧
        s.message = "Zstd-compressed stream got truncated") ∧
    (∀ sE, ∃ rO s,
      ZstdReaderBase.SeekBehindBuffer r src new_pos probe (.seekFailed sE) baseSeek =
          (false, rO, { src with stOk := false, failSt := sE }) ∧
        rO.state = .failed s ∧ s.code = sE.code ∧ s.message = sE.message) ∧
    (∀ b : Bool, ZstdReaderBase.SupportsRewind true b = b) := by
  have hle : new_pos ≤ r.limit_pos := Nat.le_of_lt hlt
  refine ⟨?_, ?_, ?_, ?_⟩
  · unfold ZstdReaderBase.SeekBehindBuffer
    rw [if_pos hle, hr]
  · intro hsrc
    unfold ZstdReaderBase.SeekBehindBuffer
    rw [if_pos hle, hr]
    unfold zstdFailNoAnnotate
    refine ⟨_, _, rfl, rfl, ?_, ?_⟩ <;>
      simp [ZstdReaderBase.AnnotateOverSrc, ZstdReader.isOpen, SrcState.StatusOrAnnotate, hsrc,
        SrcState.AnnotateStatus, Annotate]
  · intro sE
    unfold ZstdReaderBase.SeekBehindBuffer
    rw [if_pos hle, hr]
    unfold zstdFailNoAnnotate
    refine ⟨_, _, rfl, rfl, ?_, ?_⟩ <;>
      simp [ZstdReaderBase.AnnotateOverSrc, ZstdReader.isOpen, SrcState.StatusOrAnnotate,
        SrcState.AnnotateStatus, Annotate]
  · intro b
    cases b <;> rfl

/-- Witness for C6 (amended) at a concrete reader: the seek-back succeeds
and the call delegates to the default skip path after rebuilding the
context, and a truncated-source seek failure yields `DataLoss`. -/
theorem zstd_seekBehindBuffer_rewind_witness :
    (ZstdReaderBase.SeekBehindBuffer ⟨true, true, false, false, true, some 9, 10, 3, .openOk⟩
        ⟨7, 2, true, ⟨.okCode, "", []⟩, "reading foo"⟩ 4 (some 9) .seekOk
        (fun a b n => (true, a, { b with avail := n })) =
      (true,
       ⟨true, false, true, false, false, some 9, 0, 3, .openOk⟩,
       ⟨3, 4, true, ⟨.okCode, "", []⟩, "reading foo"⟩)) ∧
    (∃ rO s, ZstdReaderBase.SeekBehindBuffer
        ⟨true, true, false, false, true, some 9, 10, 3, .openOk⟩
        ⟨7, 2, true, ⟨.okCode, "", []⟩, "reading foo"⟩ 4 (some 9) .seekEofOk
        (fun a b n => (true, a, { b with avail := n })) =
          (false, rO, ⟨7, 2, true, ⟨.okCode, "", []⟩, "reading foo"⟩) ∧
      rO.state = .failed s ∧ s.code = .dataLoss ∧
      s.message = "Zstd-compressed stream got truncated") := by
  have h := zstd_seekBehindBuffer_rewind ⟨true, true, false, false, true, some 9, 10, 3, .openOk⟩
    ⟨7, 2, true, ⟨.okCode, "", []⟩, "reading foo"⟩ 4 (some 9)
    (fun a b n => (true, a, { b with avail := n })) rfl (by decide)
  constructor
  · rw [h.1]
    decide
  · exact h.2.1 rfl

/-- `FdReaderBase::AnnotateStatusImpl` preserves the root code. -/
theorem fdAnnotate_code (r : FdReader) (s : Status) : (fdAnnotate r s).code = s.code := by
  unfold fdAnnotate Annotate
  split <;> rfl

/-- `fdFail` on a healthy reader only latches the annotated status. -/
theorem fdFail_eq (r : FdReader) (s : Status) (hr : r.state = .openOk) :
    fdFail r s = { r with state := .failed (fdAnnotate r s) } := by
  unfold fdFail
  rw [hr]

/-- `fdFailOverflow` on a healthy reader latches the annotated
`ResourceExhausted` status and changes nothing else. -/
theorem fdFailOverflow_eq (r : FdReader) (hr : r.state = .openOk) :
    fdFailOverflow r =
      { r with
        state := .failed (fdAnnotate r ⟨.resourceExhausted, "Reader position overflow", []⟩) } := by
  unfold fdFailOverflow
  exact fdFail_eq r _ hr

/-- The loop invariant of `FdReaderBase::ReadInternal`: over any syscall
script, every syscall is issued in the reader's positioning mode,
`limit_pos` advances by exactly the number of bytes accumulated into
`dest`, a true return delivers at least `min_length` bytes, and a false
return leaves the reader either healthy (end-of-source) or failed with
`ResourceExhausted` (position overflow) or a non-`EINTR` errno status. -/
theorem fdReadLoop_invariant (script : List SysRes) :
    ∀ (r : FdReader) (min_length max_length : Nat) (ret : Bool) (r2 : FdReader)
      (dest : List Nat) (trace : List SysCall),
      r.state = .openOk →
      fdReadLoop r min_length max_length script = some (ret, r2, dest, trace) →
      ((∀ call ∈ trace, call.independent = r.has_independent_pos) ∧
       r2.limit_pos = r.limit_pos + dest.length ∧
       (ret = true → min_length ≤ dest.length) ∧
       (ret = false →
         r2.state = .openOk ∨
         ∃ s, r2.state = .failed s ∧
           (s.code = .resourceExhausted ∨ ∃ e, e ≠ EINTR ∧ s.code = .errnoCode e))) := by
  induction script with
  | nil =>
      intro r min_length max_length ret r2 dest trace hr hrun
      unfold fdReadLoop at hrun
      by_cases hov : offsetMax ≤ r.limit_pos
      · rw [if_pos hov, fdFailOverflow_eq r hr] at hrun
        simp only [Option.some.injEq, Prod.mk.injEq] at hrun
        obtain ⟨h1, h2, h3, h4⟩ := hrun
        subst h1; subst h2; subst h3; subst h4
        refine ⟨by simp, by simp, fun h => absurd h (by decide), fun _ => ?_⟩
        exact Or.inr ⟨_, rfl, Or.inl (by rw [fdAnnotate_code])⟩
      · rw [if_neg hov] at hrun
        exact absurd hrun (by simp)
  | cons res rest ih =>
      intro r min_length max_length ret r2 dest trace hr hrun
      unfold fdReadLoop at hrun
      by_cases hov : offsetMax ≤ r.limit_pos
      · rw [if_pos hov, fdFailOverflow_eq r hr] at hrun
        simp only [Option.some.injEq, Prod.mk.injEq] at hrun
        obtain ⟨h1, h2, h3, h4⟩ := hrun
        subst h1; subst h2; subst h3; subst h4
        refine ⟨by simp, by simp, fun h => absurd h (by decide), fun _ => ?_⟩
        exact Or.inr ⟨_, rfl, Or.inl (by rw [fdAnnotate_code])⟩
      · rw [if_neg hov] at hrun
        cases res with
        | fail e =>
            simp only [] at hrun
            by_cases he : e = EINTR
            · rw [if_pos he] at hrun
              cases hinner : fdReadLoop r min_length max_length rest with
              | none =>
                  rw [hinner] at hrun
                  exact absurd hrun (by simp)
              | some v =>
                  obtain ⟨ret3, r3, dest3, trace3⟩ := v
                  rw [hinner] at hrun
                  simp only [Option.some.injEq, Prod.mk.injEq] at hrun
                  obtain ⟨h1, h2, h3, h4⟩ := hrun
                  subst h1; subst h2; subst h3; subst h4
                  obtain ⟨ia, ib, ic, id⟩ := ih r min_length max_length ret3 r3 dest3 trace3 hr hinner
                  refine ⟨?_, ib, ic, id⟩
                  intro call hcall
                  rcases List.mem_cons.mp hcall with hc | hc
                  · subst hc; rfl
                  · exact ia call hc
            · rw [if_neg he] at hrun
              rw [fdFail_eq r _ hr] at hrun
              simp only [Option.some.injEq, Prod.mk.injEq] at hrun
              obtain ⟨h1, h2, h3, h4⟩ := hrun
              subst h1; subst h2; subst h3; subst h4
              refine ⟨?_, by simp, fun h => absurd h (by decide), fun _ => ?_⟩
              · intro call hcall
                rcases List.mem_cons.mp hcall with hc | hc
                · subst hc; rfl
                · cases hc
              · exact Or.inr ⟨_, rfl, Or.inr ⟨e, he, by rw [fdAnnotate_code]; rfl⟩⟩
        | bytes bs =>
            simp only [] at hrun
            by_cases hz : (bs.take (fdLengthToRead r max_length)).length = 0
            · rw [if_pos hz] at hrun
              simp only [Option.some.injEq, Prod.mk.injEq] at hrun
              obtain ⟨h1, h2, h3, h4⟩ := hrun
              subst h1; subst h3; subst h4
              have hstate : r2.state = .openOk := by
                rw [← h2]
                by_cases hg : r.growing_source
                · rw [if_pos hg]; exact hr
                · rw [if_neg hg]; exact hr
              have hlim : r2.limit_pos = r.limit_pos := by
                rw [← h2]
                by_cases hg : r.growing_source
                · rw [if_pos hg]
                · rw [if_neg hg]
              refine ⟨?_, by simpa using hlim, fun h => absurd h (by decide),
                fun _ => Or.inl hstate⟩
              intro call hcall
              rcases List.mem_cons.mp hcall with hc | hc
              · subst hc; rfl
              · cases hc
            · rw [if_neg hz] at hrun
              by_cases hm : min_length ≤ (bs.take (fdLengthToRead r max_length)).length
              · rw [if_pos hm] at hrun
                simp only [Option.some.injEq, Prod.mk.injEq] at hrun
                obtain ⟨h1, h2, h3, h4⟩ := hrun
                subst h1; subst h2; subst h3; subst h4
                refine ⟨?_, by simp, fun _ => hm, fun h => absurd h (by decide)⟩
                intro call hcall
                rcases List.mem_cons.mp hcall with hc | hc
                · subst hc; rfl
                · cases hc
              · rw [if_neg hm] at hrun
                cases hinner : fdReadLoop
                    { r with limit_pos := r.limit_pos + (bs.take (fdLengthToRead r max_length)).length }
                    (min_length - (bs.take (fdLengthToRead r max_length)).length)
                    (max_length - (bs.take (fdLengthToRead r max_length)).length) rest with
                | none =>
                    rw [hinner] at hrun
                    exact absurd hrun (by simp)
                | some v =>
                    obtain ⟨ret3, r3, dest3, trace3⟩ := v
                    rw [hinner] at hrun
                    simp only [Option.some.injEq, Prod.mk.injEq] at hrun
                    obtain ⟨h1, h2, h3, h4⟩ := hrun
                    subst h1; subst h2; subst h3; subst h4
                    obtain ⟨ia, ib, ic, id⟩ := ih _ _ _ ret3 r3 dest3 trace3 (by simpa using hr) hinner
                    refine ⟨?_, ?_, ?_, id⟩
                    · intro call hcall
                      rcases List.mem_cons.mp hcall with hc | hc
                      · subst hc; rfl
                      · simpa using ia call hc
                    · have ib2 : r3.limit_pos =
                          r.limit_pos + (bs.take (fdLengthToRead r max_length)).length +
                            dest3.length := by
                        simpa using ib
                      simp only [List.length_append]
                      omega
                    · intro hret
                      have hc := ic hret
                      simp only [List.length_append]
                      omega

/-- The per-syscall length cap is bounded by 1 GiB, by `ssize_t` max, and by
the room left below the `Offset` (hence `Position`) bound. -/
theorem fdLengthToRead_caps (r : FdReader) (max_length : Nat) (h : r.limit_pos < offsetMax) :
    fdLengthToRead r max_length ≤ gibibyte ∧ fdLengthToRead r max_length ≤ ssizeMax ∧
    r.limit_pos + fdLengthToRead r max_length ≤ positionMax := by
  have h1 : fdLengthToRead r max_length ≤ gibibyte :=
    le_trans (Nat.min_le_right _ _) (Nat.min_le_right _ _)
  have h2 : fdLengthToRead r max_length ≤ ssizeMax :=
    le_trans (Nat.min_le_right _ _) (Nat.min_le_left _ _)
  have h3 : fdLengthToRead r max_length ≤ offsetMax - r.limit_pos :=
    le_trans (Nat.min_le_left _ _) (Nat.min_le_right _ _)
  have h4 : offsetMax ≤ positionMax := by decide
  exact ⟨h1, h2, by omega⟩

/-- Every syscall recorded in a `fdReadLoop` trace respects the size caps. -/
theorem fdReadLoop_caps (script : List SysRes) :
    ∀ (r : FdReader) (min_length max_length : Nat) (ret : Bool) (r2 : FdReader)
      (dest : List Nat) (trace : List SysCall),
      fdReadLoop r min_length max_length script = some (ret, r2, dest, trace) →
      ∀ call ∈ trace, call.count ≤ gibibyte ∧ call.count ≤ ssizeMax ∧
        call.offset + call.count ≤ positionMax := by
  induction script with
  | nil =>
      intro r min_length max_length ret r2 dest trace hrun call hcall
      unfold fdReadLoop at hrun
      by_cases hov : offsetMax ≤ r.limit_pos
      · rw [if_pos hov] at hrun
        simp only [Option.some.injEq, Prod.mk.injEq] at hrun
        obtain ⟨-, -, -, h4⟩ := hrun
        subst h4
        cases hcall
      · rw [if_neg hov] at hrun
        exact absurd hrun (by simp)
  | cons res rest ih =>
      intro r min_length max_length ret r2 dest trace hrun call hcall
      unfold fdReadLoop at hrun
      by_cases hov : offsetMax ≤ r.limit_pos
      · rw [if_pos hov] at hrun
        simp only [Option.some.injEq, Prod.mk.injEq] at hrun
        obtain ⟨-, -, -, h4⟩ := hrun
        subst h4
        cases hcall
      · rw [if_neg hov] at hrun
        have hcaps := fdLengthToRead_caps r max_length (Nat.lt_of_not_le hov)
        cases res with
        | fail e =>
            simp only [] at hrun
            by_cases he : e = EINTR
            · rw [if_pos he] at hrun
              cases hinner : fdReadLoop r min_length max_length rest with
              | none =>
                  rw [hinner] at hrun
                  exact absurd hrun (by simp)
              | some v =>
                  obtain ⟨ret3, r3, dest3, trace3⟩ := v
                  rw [hinner] at hrun
                  simp only [Option.some.injEq, Prod.mk.injEq] at hrun
                  obtain ⟨-, -, -, h4⟩ := hrun
                  subst h4
                  rcases List.mem_cons.mp hcall with hc | hc
                  · subst hc; exact ⟨hcaps.1, hcaps.2.1, hcaps.2.2⟩
                  · exact ih r min_length max_length ret3 r3 dest3 trace3 hinner call hc
            · rw [if_neg he] at hrun
              simp only [Option.some.injEq, Prod.mk.injEq] at hrun
              obtain ⟨-, -, -, h4⟩ := hrun
              subst h4
              rcases List.mem_cons.mp hcall with hc | hc
              · subst hc; exact ⟨hcaps.1, hcaps.2.1, hcaps.2.2⟩
              · cases hc
        | bytes bs =>
            simp only [] at hrun
            by_cases hz : (bs.take (fdLengthToRead r max_length)).length = 0
            · rw [if_pos hz] at hrun
              simp only [Option.some.injEq, Prod.mk.injEq] at hrun
              obtain ⟨-, -, -, h4⟩ := hrun
              subst h4
              rcases List.mem_cons.mp hcall with hc | hc
              · subst hc; exact ⟨hcaps.1, hcaps.2.1, hcaps.2.2⟩
              · cases hc
            · rw [if_neg hz] at hrun
              by_cases hm : min_length ≤ (bs.take (fdLengthToRead r max_length)).length
              · rw [if_pos hm] at hrun
                simp only [Option.some.injEq, Prod.mk.injEq] at hrun
                obtain ⟨-, -, -, h4⟩ := hrun
                subst h4
                rcases List.mem_cons.mp hcall with hc | hc
                · subst hc; exact ⟨hcaps.1, hcaps.2.1, hcaps.2.2⟩
                · cases hc
              · rw [if_neg hm] at hrun
                cases hinner : fdReadLoop
                    { r with limit_pos :=
                        r.limit_pos + (bs.take (fdLengthToRead r max_length)).length }
                    (min_length - (bs.take (fdLengthToRead r max_length)).length)
                    (max_length - (bs.take (fdLengthToRead r max_length)).length) rest with
                | none =>
                    rw [hinner] at hrun
                    exact absurd hrun (by simp)
                | some v =>
                    obtain ⟨ret3, r3, dest3, trace3⟩ := v
                    rw [hinner] at hrun
                    simp only [Option.some.injEq, Prod.mk.injEq] at hrun
                    obtain ⟨-, -, -, h4⟩ := hrun
                    subst h4
                    rcases List.mem_cons.mp hcall with hc | hc
                    · subst hc; exact ⟨hcaps.1, hcaps.2.1, hcaps.2.2⟩
                    · exact ih _ _ _ ret3 r3 dest3 trace3 hinner call hc

/-- C2 counterexample: a read that delivers one byte (no end-of-file, no
syscall failure anywhere in the script) still makes `ReadInternal` return
false — the position reaches the `Offset` maximum after the first byte and
the next round fails `ResourceExhausted` — so "returns false only on
end-of-source or on a non-EINTR syscall failure" does not hold as
stated. -/
theorem fd_false_without_eof_or_errno :
    FdReaderBase.ReadInternal ⟨offsetMax - 1, false, false, none, .openOk, "f"⟩ 2 2
        [.bytes [7], .bytes [8]] =
      some (false,
        ⟨offsetMax, false, false, none,
         .failed ⟨.resourceExhausted, "Reader position overflow",
                  ["reading f", "at byte 9223372036854775807"]⟩, "f"⟩,
        [7], [⟨false, offsetMax - 1, 1⟩]) := by
  decide

/-- C2 (amended): `FdReaderBase::ReadInternal`, under the preconditions
`0 < min_length <= max_length` on a healthy reader, issues every syscall in
the reader's positioning mode (`pread` at `limit_pos` in independent mode,
`read` otherwise), accumulates the delivered bytes into `dest` and
advances `limit_pos` by exactly their number, returns true as soon as at
least `min_length` bytes have been read in total, restarts a syscall that
fails with `EINTR`, and returns false only on end-of-source (a zero-byte
read, reader still healthy), on a syscall failure with a non-`EINTR`
errno, or on position overflow (`ResourceExhausted`) — never because fewer
than `max_length` bytes were available. -/
theorem fd_readInternal_contract :
    (∀ (script : List SysRes) (r : FdReader) (min_length max_length : Nat)
       (ret : Bool) (r2 : FdReader) (dest : List Nat) (trace : List SysCall),
       0 < min_length → min_length ≤ max_length → r.state = .openOk →
       FdReaderBase.ReadInternal r min_length max_length script = some (ret, r2, dest, trace) →
       ((∀ call ∈ trace, call.independent = r.has_independent_pos) ∧
        r2.limit_pos = r.limit_pos + dest.length ∧
        (ret = true → min_length ≤ dest.length) ∧
        (ret = false →
          r2.state = .openOk ∨
          ∃ s, r2.state = .failed s ∧
            (s.code = .resourceExhausted ∨ ∃ e, e ≠ EINTR ∧ s.code = .errnoCode e)))) ∧
    (∀ (r : FdReader) (min_length max_length : Nat) (rest : List SysRes),
       r.limit_pos < offsetMax →
       FdReaderBase.ReadInternal r min_length max_length (.fail EINTR :: rest) =
         (match FdReaderBase.ReadInternal r min_length max_length rest with
          | none => none
          | some (ret, r2, dest, trace) =>
              some (ret, r2, dest,
                (⟨r.has_independent_pos, r.limit_pos, fdLengthToRead r max_length⟩ :
                  SysCall) :: trace))) := by
  constructor
  · intro script r min_length max_length ret r2 dest trace _ _ hr hrun
    exact fdReadLoop_invariant script r min_length max_length ret r2 dest trace hr hrun
  · intro r min_length max_length rest h
    unfold FdReaderBase.ReadInternal
    conv_lhs => unfold fdReadLoop
    rw [if_neg (Nat.not_le.mpr h)]
    rfl

/-- Witness for C2 (amended): one syscall delivering one byte satisfies a
`min_length = 1` request: the returned reader's position advanced by the
byte count and the read returned true with at least one byte. -/
theorem fd_readInternal_contract_witness :
    (⟨1, false, false, none, .openOk, ""⟩ : FdReader).limit_pos =
        (⟨0, false, false, none, .openOk, ""⟩ : FdReader).limit_pos + [9].length ∧
    ((true : Bool) = true → (1 : Nat) ≤ [9].length) := by
  have h := fd_readInternal_contract.1 [SysRes.bytes [9]] ⟨0, false, false, none, .openOk, ""⟩
      1 1 true ⟨1, false, false, none, .openOk, ""⟩ [9] [⟨false, 0, 1⟩]
      (by decide) (by decide) rfl (by decide)
  exact ⟨h.2.1, h.2.2.1⟩

/-- C8: every single `read`/`pread` issued by `FdReaderBase::ReadInternal`
requests at most 1 GiB, at most `ssize_t` max bytes, and never more than
the room left below the `Position` upper bound at its offset; and a read
attempted when `limit_pos` is already `Position::MAX` fails
`ResourceExhausted` immediately (no syscall, no bytes) instead of
wrapping. -/
theorem fd_read_size_caps :
    (∀ (script : List SysRes) (r : FdReader) (min_length max_length : Nat)
       (ret : Bool) (r2 : FdReader) (dest : List Nat) (trace : List SysCall),
       FdReaderBase.ReadInternal r min_length max_length script = some (ret, r2, dest, trace) →
       ∀ call ∈ trace, call.count ≤ gibibyte ∧ call.count ≤ ssizeMax ∧
         call.offset + call.count ≤ positionMax) ∧
    (∀ (r : FdReader) (min_length max_length : Nat) (script : List SysRes),
       r.limit_pos = positionMax → r.state = .openOk →
       ∃ s, FdReaderBase.ReadInternal r min_length max_length script =
           some (false, { r with state := .failed s }, [], []) ∧
         s.code = .resourceExhausted) := by
  constructor
  · intro script r min_length max_length ret r2 dest trace hrun
    exact fdReadLoop_caps script r min_length max_length ret r2 dest trace hrun
  · intro r min_length max_length script h hr
    have hov : offsetMax ≤ r.limit_pos := by rw [h]; decide
    refine ⟨fdAnnotate r ⟨.resourceExhausted, "Reader position overflow", []⟩, ?_, ?_⟩
    · unfold FdReaderBase.ReadInternal
      cases script with
      | nil =>
          unfold fdReadLoop
          rw [if_pos hov, fdFailOverflow_eq r hr]
      | cons res rest =>
          unfold fdReadLoop
          rw [if_pos hov, fdFailOverflow_eq r hr]
    · rw [fdAnnotate_code]

/-- Witness for C8: the single syscall of a one-byte read respects all three
caps, and a reader already at `Position::MAX` fails `ResourceExhausted`
without reading. -/
theorem fd_read_size_caps_witness :
    ((⟨false, 0, 1⟩ : SysCall).count ≤ gibibyte ∧ (⟨false, 0, 1⟩ : SysCall).count ≤ ssizeMax ∧
     (⟨false, 0, 1⟩ : SysCall).offset + (⟨false, 0, 1⟩ : SysCall).count ≤ positionMax) ∧
    (∃ s, FdReaderBase.ReadInternal ⟨positionMax, false, false, none, .openOk, "g"⟩ 1 1
          [.bytes [5]] =
        some (false, { (⟨positionMax, false, false, none, .openOk, "g"⟩ : FdReader) with
                       state := .failed s }, [], []) ∧
      s.code = .resourceExhausted) := by
  constructor
  · exact fd_read_size_caps.1 [SysRes.bytes [9]] ⟨0, false, false, none, .openOk, ""⟩
      1 1 true ⟨1, false, false, none, .openOk, ""⟩ [9] [⟨false, 0, 1⟩]
      (by decide) ⟨false, 0, 1⟩ (by simp)
  · exact fd_read_size_caps.2 ⟨positionMax, false, false, none, .openOk, "g"⟩ 1 1
      [.bytes [5]] rfl rfl

end Riegeli
